import Mathlib

/-!
The audio frame inspector `ashowinfo` of libavfilter (af_ashowinfo.c).

A shallow embedding of `config_input`, `uninit` and `filter_frame`.

Conventions of the embedding

* `int` values are `Int`; a product computed in `int` is reduced by `wrap_int`
  (two's complement, 32 bits). `uint32_t` and `uint64_t` values are `Nat`,
  reduced modulo `2^32` and `2^64` where the C code stores them.
* The private context is passed explicitly. The scratch pointer
  `plane_checksums` is `none` for `NULL` and `some m` for a block of
  `m.length` 32-bit slots.
* Every access to the scratch and to the planes of the frame is bounds
  checked. An access outside the block is undefined behaviour in C; the
  embedding stops there with a `Fault` that names the offending index.
* Library helpers that live outside this file (`av_adler32_update`,
  `av_get_channel_layout_nb_channels`, the sample format tables, the
  downstream `ff_filter_frame`, the allocator) are parameters.
-/

namespace AShowInfo

/-! ## Data model -/

/-- Rational number of libavutil, used for the time base of a link. -/
structure AVRational where
  num : Int
  den : Int
deriving DecidableEq

/-- The fields of an audio `AVFrame` that `filter_frame` reads.
`extended_data` lists the plane buffers, each a list of bytes. -/
structure AVFrame where
  extended_data : List (List Nat)
  nb_samples : Int
  format : Int
  pts : Int
  sample_rate : Int
  channel_layout : Nat
deriving DecidableEq

/-- The negotiated properties of the input `AVFilterLink`. The filter reads
`channel_layout` in `config_input` and `time_base` in `filter_frame`; it never
reads `format`. -/
structure AVFilterLink where
  channel_layout : Nat
  format : Int
  time_base : AVRational
deriving DecidableEq

/-- Private context of the filter: the scratch pointer and the frame counter. -/
structure AShowInfoContext where
  plane_checksums : Option (List Nat)
  frame : Nat
deriving DecidableEq

/-- Helpers of libavutil and libavfilter called by the filter, with the
signatures the call sites give them.

* `av_adler32_update adler buf` is the checksum primitive, `buf` being the
  `len` bytes the C call reads;
* `av_get_channel_layout_string buf_size nb_channels layout` is the text left
  in the caller's buffer;
* `fmt_double x` is the text `printf` writes for `%f`; the `double` product is
  represented by the exact rational `x`;
* `ff_filter_frame buf` is the code the downstream link returns for `buf`. -/
structure Externs where
  av_get_channel_layout_nb_channels : Nat → Int
  av_sample_fmt_is_planar : Int → Int
  av_get_bytes_per_sample : Int → Int
  av_adler32_update : Nat → List Nat → Nat
  av_get_channel_layout_string : Nat → Int → Nat → String
  av_get_sample_fmt_name : Int → String
  fmt_double : Rat → String
  ff_filter_frame : AVFrame → Int

/-- An access outside an allocated object. -/
inductive Fault where
  | scratch (i : Nat)
  | plane (i : Nat)
deriving DecidableEq

/-! ## Machine arithmetic -/

/-- Reduction of an integer to the range of a 32-bit `int`. -/
def wrap_int (x : Int) : Int := (x + 2147483648) % 4294967296 - 2147483648

/-- Conversion of an `int` to `unsigned int`. -/
def to_uint (x : Int) : Nat := (x % 4294967296).toNat

/-- Truncation to `uint32_t`. -/
def to_u32 (x : Nat) : Nat := x % 4294967296

/-- The value `ENOMEM` of errno.h. -/
def ENOMEM : Int := 12

/-- The macro `AVERROR(e)`: the negated errno value. -/
def AVERROR (e : Int) : Int := -e

/-! ## Checked memory accesses -/

/-- Write `s->plane_checksums[i] = v`. -/
def store (p : Option (List Nat)) (i v : Nat) : Except Fault (Option (List Nat)) :=
  match p with
  | none => .error (.scratch i)
  | some m => if i < m.length then .ok (some (m.set i v)) else .error (.scratch i)

/-- Read `s->plane_checksums[i]`. -/
def load (p : Option (List Nat)) (i : Nat) : Except Fault Nat :=
  match p with
  | none => .error (.scratch i)
  | some m => if i < m.length then .ok (m.getD i 0) else .error (.scratch i)

/-- The `len` bytes at `buf->extended_data[i]`. -/
def read_plane (buf : AVFrame) (i len : Nat) : Except Fault (List Nat) :=
  match buf.extended_data[i]? with
  | none => .error (.plane i)
  | some d => if len ≤ d.length then .ok (d.take len) else .error (.plane i)

/-! ## config_input and uninit -/

/-- Number of `uint32_t` slots of a block of `size` bytes. -/
def slots_of_size (size : Nat) : Nat := size / 4

/-- The argument `channels * sizeof(*s->plane_checksums)`, computed in
`size_t` (64 bits). -/
def alloc_size (channels : Int) : Nat := ((channels * 4) % 18446744073709551616).toNat

/-- Body of `config_input`. `av_malloc size` is `none` when the allocator returns
`NULL`, and otherwise the uninitialised content of the fresh block, word by
word. The result is the returned code and the context after the call. -/
def config_input (ext : Externs) (av_malloc : Nat → Option (Nat → Nat))
    (inlink : AVFilterLink) (s : AShowInfoContext) : Int × AShowInfoContext :=
  let channels := ext.av_get_channel_layout_nb_channels inlink.channel_layout
  let size := alloc_size channels
  let p := (av_malloc size).map (fun junk => (List.range (slots_of_size size)).map junk)
  let s1 : AShowInfoContext := { s with plane_checksums := p }
  match s1.plane_checksums with
  | none => (AVERROR ENOMEM, s1)
  | some _ => (0, s1)

/-- Modelled from the spec: `av_freep` of libavutil/mem.c is not part of the
sources at hand. It releases the allocation the pointer designates and leaves
`NULL` in the pointer; when nothing is allocated it does nothing and signals no
error. The argument and the result are the pointer before and after the call. -/
def av_freep (p : Option (List Nat)) : Option (List Nat) :=
  match p with
  | none => none
  | some _ => none

/-- Body of `uninit`: `av_freep` frees the block and stores `NULL`. -/
def uninit (s : AShowInfoContext) : AShowInfoContext :=
  { s with plane_checksums := av_freep s.plane_checksums }

/-! ## filter_frame -/

/-- Line 75: `channels`. -/
def frame_channels (ext : Externs) (buf : AVFrame) : Int :=
  ext.av_get_channel_layout_nb_channels buf.channel_layout

/-- Line 76: `planar`. -/
def frame_planar (ext : Externs) (buf : AVFrame) : Int :=
  ext.av_sample_fmt_is_planar buf.format

/-- Line 77: `block_align`. -/
def frame_block_align (ext : Externs) (buf : AVFrame) : Int :=
  wrap_int (ext.av_get_bytes_per_sample buf.format *
    (if frame_planar ext buf ≠ 0 then 1 else frame_channels ext buf))

/-- Line 78: `data_size`. -/
def frame_data_size (ext : Externs) (buf : AVFrame) : Int :=
  wrap_int (buf.nb_samples * frame_block_align ext buf)

/-- Line 79: `planes`. -/
def frame_planes (ext : Externs) (buf : AVFrame) : Int :=
  if frame_planar ext buf ≠ 0 then frame_channels ext buf else 1

/-- One iteration of the loop of lines 82 to 88, on the pair of the scratch
and the running `checksum`. -/
def plane_step (ext : Externs) (buf : AVFrame) (data_size : Int)
    (st : Option (List Nat) × Nat) (i : Nat) : Except Fault (Option (List Nat) × Nat) := do
  let data ← read_plane buf i (to_uint data_size)
  let pc ← store st.1 i (to_u32 (ext.av_adler32_update 0 data))
  let checksum ← if i ≠ 0 then pure (to_u32 (ext.av_adler32_update st.2 data)) else load pc 0
  pure (pc, checksum)

/-- The loop of lines 82 to 88, started with `checksum = 0`. -/
def plane_loop (ext : Externs) (buf : AVFrame) (data_size : Int) (planes : Nat)
    (pc : Option (List Nat)) : Except Fault (Option (List Nat) × Nat) :=
  (List.range planes).foldlM (plane_step ext buf data_size) (pc, 0)

/-! ## Text of the report -/

/-- Upper-case hexadecimal digit of a value below 16. -/
def hex_char (d : Nat) : Char :=
  if d < 10 then Char.ofNat (48 + d) else Char.ofNat (55 + d)

/-- Digits written by the conversion `%X`, most significant first, without
leading zeros; `fuel` bounds the number of digits. -/
def hex_digits : Nat → Nat → List Char
  | 0, _ => []
  | fuel + 1, v =>
    if v < 16 then [hex_char v] else hex_digits fuel (v / 16) ++ [hex_char (v % 16)]

/-- Text written by `%08X` for an `unsigned int`: the digits of `%X`, padded
on the left with zeros to a width of 8. -/
def fmt_08X (v : Nat) : String :=
  let ds := hex_digits 16 v
  String.mk (List.replicate (8 - ds.length) '0' ++ ds)

/-- Value of a hexadecimal digit; 16 for any other character. -/
def hex_val (c : Char) : Nat :=
  if 48 ≤ c.toNat ∧ c.toNat ≤ 57 then c.toNat - 48
  else if 65 ≤ c.toNat ∧ c.toNat ≤ 70 then c.toNat - 55
  else 16

/-- Number denoted by a string of hexadecimal digits. -/
def hex_value (t : String) : Nat :=
  t.data.foldl (fun acc c => 16 * acc + hex_val c) 0

/-- The function `av_q2d`, with the `double` quotient represented by the exact
rational (a zero denominator gives 0 here, an infinity or NaN in C). -/
def av_q2d (a : AVRational) : Rat := (a.num : Rat) / (a.den : Rat)

/-- Text of the first `av_log` call up to and including `nb_samples`. -/
def report_head (ext : Externs) (inlink : AVFilterLink) (s : AShowInfoContext)
    (buf : AVFrame) : String :=
  "n:" ++ toString s.frame ++ " pts:" ++ toString buf.pts ++
  " pts_time:" ++ ext.fmt_double ((buf.pts : Rat) * av_q2d inlink.time_base) ++
  " fmt:" ++ ext.av_get_sample_fmt_name buf.format ++
  " chlayout:" ++ ext.av_get_channel_layout_string 128 (-1) buf.channel_layout ++
  " rate:" ++ toString buf.sample_rate ++
  " nb_samples:" ++ toString buf.nb_samples ++ " "

/-- What one call of `filter_frame` leaves behind: the context, the text of
each `av_log` call in order, the values passed to the report (`n`, `pts_time`,
`checksum` and the per-plane values printed by the second loop), the frames
handed to `ff_filter_frame`, and the returned code. -/
structure FilterResult where
  ctx : AShowInfoContext
  log : List String
  n : Nat
  pts_time : Rat
  checksum : Nat
  printed : List Nat
  forwarded : List AVFrame
  ret : Int
deriving DecidableEq

/-- Body of `filter_frame`. -/
def filter_frame (ext : Externs) (inlink : AVFilterLink) (s : AShowInfoContext)
    (buf : AVFrame) : Except Fault FilterResult := do
  let data_size := frame_data_size ext buf
  let planes := (frame_planes ext buf).toNat
  let r ← plane_loop ext buf data_size planes s.plane_checksums
  let line := report_head ext inlink s buf ++ "checksum:" ++ fmt_08X r.2 ++ " "
  let printed ← (List.range planes).mapM (load r.1)
  let log := [line, "plane_checksums: [ "] ++ printed.map (fun v => fmt_08X v ++ " ") ++ ["]\n"]
  pure {
    ctx := { plane_checksums := r.1, frame := (s.frame + 1) % 18446744073709551616 }
    log := log
    n := s.frame
    pts_time := (buf.pts : Rat) * av_q2d inlink.time_base
    checksum := r.2
    printed := printed
    forwarded := [buf]
    ret := ext.ff_filter_frame buf }

/-! ## Vocabulary of the statements -/

/-- Number of slots of the scratch; 0 for `NULL`. -/
def slots (p : Option (List Nat)) : Nat :=
  match p with
  | none => 0
  | some m => m.length

/-- Number of iterations of the loops of `filter_frame`. -/
def plane_count (ext : Externs) (buf : AVFrame) : Nat := (frame_planes ext buf).toNat

/-- Number of bytes `av_adler32_update` is asked to read from each plane. -/
def frame_len (ext : Externs) (buf : AVFrame) : Nat := to_uint (frame_data_size ext buf)

/-- Plane `i` exists and holds at least `len` bytes. -/
def plane_ok (buf : AVFrame) (len i : Nat) : Bool :=
  match buf.extended_data[i]? with
  | none => false
  | some d => decide (len ≤ d.length)

/-- The first `len` bytes of plane `i`. -/
def plane_bytes (buf : AVFrame) (len i : Nat) : List Nat :=
  (buf.extended_data.getD i []).take len

/-- Every plane the loop visits can be read over `data_size` bytes. -/
def frame_ok (ext : Externs) (buf : AVFrame) : Prop :=
  ∀ i, i < plane_count ext buf → plane_ok buf (frame_len ext buf) i = true

instance (ext : Externs) (buf : AVFrame) : Decidable (frame_ok ext buf) := by
  unfold frame_ok; infer_instance

/-- The bytes of plane `i` that `filter_frame` checksums. -/
def plane_data (ext : Externs) (buf : AVFrame) (i : Nat) : List Nat :=
  plane_bytes buf (frame_len ext buf) i

/-- The planes of the frame in ascending order, each cut to `data_size` bytes. -/
def plane_list (ext : Externs) (buf : AVFrame) : List (List Nat) :=
  (List.range (plane_count ext buf)).map (plane_data ext buf)

/-- Digits of `v` modulo `16^k`, written with exactly `k` digits. -/
def hex_fixed : Nat → Nat → List Char
  | 0, _ => []
  | k + 1, v => hex_fixed k (v / 16) ++ [hex_char (v % 16)]

/-- The text `t` is 8 upper-case hexadecimal digits, without any other
character, and denotes `v`. -/
def is_hex8 (t : String) (v : Nat) : Prop :=
  t.length = 8 ∧ (∀ c ∈ t.data, c ∈ "0123456789ABCDEF".data) ∧ hex_value t = v

/-! ## Sequences of calls -/

/-- One call made by the host: `config_input` with the behaviour of the
allocator during that call, or `filter_frame`. -/
inductive Call where
  | config (av_malloc : Nat → Option (Nat → Nat)) (inlink : AVFilterLink)
  | frame (inlink : AVFilterLink) (buf : AVFrame)

/-- Number of `filter_frame` calls of a sequence. -/
def frame_calls : List Call → Nat
  | [] => 0
  | Call.config _ _ :: cs => frame_calls cs
  | Call.frame _ _ :: cs => frame_calls cs + 1

/-- Run a sequence of calls on one instance; the result is the final context
and the results of the `filter_frame` calls in order. -/
def run (ext : Externs) : AShowInfoContext → List Call →
    Except Fault (AShowInfoContext × List FilterResult)
  | s, [] => .ok (s, [])
  | s, Call.config av_malloc inlink :: cs => run ext (config_input ext av_malloc inlink s).2 cs
  | s, Call.frame inlink buf :: cs =>
    match filter_frame ext inlink s buf with
    | .error e => .error e
    | .ok r =>
      match run ext r.ctx cs with
      | .error e => .error e
      | .ok rest => .ok (rest.1, r :: rest.2)

/-! ## Sample collaborators, used to run the definitions -/

/-- A small checksum primitive: seed plus the sum of the bytes, modulo `2^32`. -/
def sum32_update (adler : Nat) (bytes : List Nat) : Nat :=
  (adler + bytes.sum) % 4294967296

/-- Sample helpers: the channel count is the number of set bits among the low
8 bits of the layout, formats 0 to 4 are packed with 1, 2, 4, 4, 8 bytes per
sample, formats 5 to 9 their planar variants. -/
def sample_ext : Externs where
  av_get_channel_layout_nb_channels := fun l =>
    (((List.range 8).filter (fun i => l.testBit i)).length : Int)
  av_sample_fmt_is_planar := fun f => if 5 ≤ f ∧ f ≤ 9 then 1 else 0
  av_get_bytes_per_sample := fun f =>
    if f = 0 ∨ f = 5 then 1 else if f = 1 ∨ f = 6 then 2
    else if f = 2 ∨ f = 7 ∨ f = 3 ∨ f = 8 then 4 else if f = 4 ∨ f = 9 then 8 else 0
  av_adler32_update := sum32_update
  av_get_channel_layout_string := fun _ _ l => toString l
  av_get_sample_fmt_name := fun f => toString f
  fmt_double := fun x => toString x
  ff_filter_frame := fun _ => 0

/-- An allocator that always succeeds and hands out zeroed memory. -/
def malloc_ok : Nat → Option (Nat → Nat) := fun _ => some (fun _ => 0)

/-- An allocator that always fails. -/
def malloc_fail : Nat → Option (Nat → Nat) := fun _ => none

/-- A link for packed stereo (layout 3, format 1) with time base 1/44100. -/
def stereo_link : AVFilterLink :=
  { channel_layout := 3, format := 1, time_base := { num := 1, den := 44100 } }

/-- A link for planar stereo (layout 3, format 6) with time base 1/44100. -/
def planar_link : AVFilterLink :=
  { channel_layout := 3, format := 6, time_base := { num := 1, den := 44100 } }

/-- A context holding two slots of stale data and a counter of 7. -/
def used_ctx : AShowInfoContext := { plane_checksums := some [111, 222], frame := 7 }

/-- A freshly created context: the private data is zeroed. -/
def fresh_ctx : AShowInfoContext := { plane_checksums := none, frame := 0 }

/-- A planar stereo 16-bit frame of 2 samples. -/
def planar_frame : AVFrame :=
  { extended_data := [[1, 2, 3, 4], [5, 6, 7, 8]], nb_samples := 2, format := 6, pts := 0,
    sample_rate := 44100, channel_layout := 3 }

/-- A packed stereo 16-bit frame of 2 samples. -/
def packed_frame : AVFrame :=
  { extended_data := [[1, 2, 3, 4, 5, 6, 7, 8]], nb_samples := 2, format := 1, pts := 0,
    sample_rate := 44100, channel_layout := 3 }

/-- A sequence of calls: configure, one frame, a failed reconfiguration, a successful
one, two more frames. -/
def sample_calls : List Call :=
  [Call.config malloc_ok planar_link, Call.frame planar_link planar_frame,
   Call.config malloc_fail stereo_link, Call.config malloc_ok stereo_link,
   Call.frame stereo_link packed_frame, Call.frame planar_link planar_frame]

/-! ## Text of a whole report -/

/-- Everything one call of `filter_frame` writes to the log, in order. -/
def report_text (r : FilterResult) : String := String.join r.log

/-- The lines of a text: the pieces between newline characters; a newline at
the very end closes the last line and opens no further one. -/
def text_lines : List Char → List (List Char)
  | [] => []
  | c :: cs =>
    if c = '\n' then [] :: text_lines cs
    else
      match text_lines cs with
      | [] => [[c]]
      | l :: ls => (c :: l) :: ls

/-! ## More sample inputs -/

/-- Sample helpers whose text fields are fixed words, and whose downstream link
refuses every frame with `AVERROR(ENOMEM)`. -/
def plain_ext : Externs :=
  { sample_ext with
    av_get_channel_layout_string := fun _ _ _ => "stereo"
    av_get_sample_fmt_name := fun _ => "s16"
    fmt_double := fun _ => "0.000000"
    ff_filter_frame := fun _ => AVERROR ENOMEM }

/-- A planar stereo 16-bit frame of 2 samples whose two planes hold the same bytes. -/
def twin_frame : AVFrame :=
  { extended_data := [[1, 2, 3, 4], [1, 2, 3, 4]], nb_samples := 2, format := 6, pts := 0,
    sample_rate := 44100, channel_layout := 3 }

theorem read_plane_of_ok (buf : AVFrame) (len i : Nat) (h : plane_ok buf len i = true) :
    read_plane buf i len = .ok (plane_bytes buf len i) := by
  unfold plane_ok at h
  unfold read_plane plane_bytes
  cases hd : buf.extended_data[i]? with
  | none => simp [hd] at h
  | some d =>
    simp [hd] at h
    simp [hd, h]

theorem set_at_drop (a : List Nat) (m : List Nat) (v : Nat) (h : a.length < m.length) :
    (a ++ m.drop a.length).set a.length v = (a ++ [v]) ++ m.drop (a.length + 1) := by
  rw [List.set_append]
  simp only [Nat.lt_irrefl, if_false, Nat.sub_self]
  rw [List.drop_eq_getElem_cons h, List.set_cons_zero, List.append_assoc]
  rfl

/-- Closed form of the loop: it does not fault when the planes are readable
and the scratch has a slot per plane; slot `i` receives the checksum of plane
`i` from seed 0, the slots from `n` on keep their content, and `checksum` is
the primitive folded over the planes in ascending order. -/
theorem plane_loop_eq (ext : Externs) (buf : AVFrame) (ds : Int) (p : Option (List Nat)) :
    ∀ n : Nat, (∀ i, i < n → plane_ok buf (to_uint ds) i = true) → n ≤ slots p →
    plane_loop ext buf ds n p = .ok
      (p.map (fun m => (List.range n).map
          (fun i => to_u32 (ext.av_adler32_update 0 (plane_bytes buf (to_uint ds) i))) ++ m.drop n),
       ((List.range n).map (plane_bytes buf (to_uint ds))).foldl
          (fun c d => to_u32 (ext.av_adler32_update c d)) 0) := by
  intro n
  induction n with
  | zero =>
    intro _ _
    cases p <;> simp [plane_loop, pure, Except.pure]
  | succ n ih =>
    intro hr hs
    have ih1 := ih (fun i hi => hr i (Nat.lt_succ_of_lt hi)) (Nat.le_of_succ_le hs)
    unfold plane_loop at ih1 ⊢
    rw [List.range_succ, List.foldlM_append, ih1]
    cases p with
    | none => simp [slots] at hs
    | some m =>
      have hm : n < m.length := hs
      have hrd := read_plane_of_ok buf (to_uint ds) n (hr n (Nat.lt_succ_self n))
      have hlen : ((List.range n).map
          (fun i => to_u32 (ext.av_adler32_update 0 (plane_bytes buf (to_uint ds) i)))).length = n := by
        simp
      have hset := set_at_drop ((List.range n).map
          (fun i => to_u32 (ext.av_adler32_update 0 (plane_bytes buf (to_uint ds) i)))) m
          (to_u32 (ext.av_adler32_update 0 (plane_bytes buf (to_uint ds) n))) (by rw [hlen]; exact hm)
      rw [hlen] at hset
      simp only [bind, Except.bind, List.foldlM, Option.map, plane_step, hrd, store, pure, Except.pure]
      have hl : n < ((List.range n).map
          (fun i => to_u32 (ext.av_adler32_update 0 (plane_bytes buf (to_uint ds) i))) ++
            m.drop n).length := by
        simp; omega
      rw [if_pos hl]
      simp only [hset]
      by_cases h0 : n = 0
      · subst h0
        simp [load, to_u32]
      · simp [h0, List.range_succ]

/-- Reading back slots that exist does not fault. -/
theorem mapM_load (l : List Nat) (is : List Nat) (h : ∀ i ∈ is, i < l.length) :
    is.mapM (load (some l)) = .ok (is.map (fun i => l.getD i 0)) := by
  induction is with
  | nil => rfl
  | cons a t ih =>
    have ha : a < l.length := h a (List.mem_cons_self a t)
    have iht := ih (fun i hi => h i (List.mem_cons_of_mem a hi))
    rw [List.mapM_cons, iht]
    simp [load, ha, bind, Except.bind, pure, Except.pure]

/-- The values the second loop prints are the per-plane checksums just stored. -/
theorem mapM_load_stored (f : Nat → Nat) (n : Nat) (p : Option (List Nat)) (h : n ≤ slots p) :
    (List.range n).mapM (load (p.map (fun m => (List.range n).map f ++ m.drop n))) =
      .ok ((List.range n).map f) := by
  cases p with
  | none =>
    have h0 : n = 0 := by simpa [slots] using h
    subst h0
    rfl
  | some m =>
    have hm : n ≤ m.length := h
    simp only [Option.map]
    rw [mapM_load]
    · congr 1
      apply List.map_congr_left
      intro i hi
      have hin : i < n := List.mem_range.mp hi
      rw [List.getD_eq_getElem?_getD, List.getElem?_append_left (by simpa using hin)]
      simp [hin]
    · intro i hi
      have hin : i < n := List.mem_range.mp hi
      simp
      omega

/-- Checksum of plane `i` from seed 0, as stored in slot `i`. -/
theorem filter_frame_eq (ext : Externs) (inlink : AVFilterLink) (s : AShowInfoContext)
    (buf : AVFrame) (hf : frame_ok ext buf)
    (hs : plane_count ext buf ≤ slots s.plane_checksums) :
    filter_frame ext inlink s buf = .ok
      { ctx :=
          { plane_checksums := s.plane_checksums.map (fun m =>
              (List.range (plane_count ext buf)).map
                (fun i => to_u32 (ext.av_adler32_update 0 (plane_data ext buf i))) ++
              m.drop (plane_count ext buf))
            frame := (s.frame + 1) % 18446744073709551616 }
        log :=
          [report_head ext inlink s buf ++ "checksum:" ++
              fmt_08X ((plane_list ext buf).foldl
                (fun c d => to_u32 (ext.av_adler32_update c d)) 0) ++ " ",
            "plane_checksums: [ "] ++
          ((List.range (plane_count ext buf)).map
            (fun i => to_u32 (ext.av_adler32_update 0 (plane_data ext buf i)))).map
              (fun v => fmt_08X v ++ " ") ++ ["]\n"]
        n := s.frame
        pts_time := (buf.pts : Rat) * av_q2d inlink.time_base
        checksum := (plane_list ext buf).foldl (fun c d => to_u32 (ext.av_adler32_update c d)) 0
        printed := (List.range (plane_count ext buf)).map
            (fun i => to_u32 (ext.av_adler32_update 0 (plane_data ext buf i)))
        forwarded := [buf]
        ret := ext.ff_filter_frame buf } := by
  have hl : plane_loop ext buf (frame_data_size ext buf) (plane_count ext buf)
      s.plane_checksums = .ok
        (s.plane_checksums.map (fun m =>
          (List.range (plane_count ext buf)).map
            (fun i => to_u32 (ext.av_adler32_update 0 (plane_data ext buf i))) ++
          m.drop (plane_count ext buf)),
         (plane_list ext buf).foldl (fun c d => to_u32 (ext.av_adler32_update c d)) 0) :=
    plane_loop_eq ext buf (frame_data_size ext buf) s.plane_checksums
      (plane_count ext buf) hf hs
  have hp := mapM_load_stored
    (fun i => to_u32 (ext.av_adler32_update 0 (plane_data ext buf i)))
    (plane_count ext buf) s.plane_checksums hs
  simp only [filter_frame]
  rw [show (frame_planes ext buf).toNat = plane_count ext buf from rfl, hl]
  simp only [bind, Except.bind]
  rw [hp]
  rfl

/-- Slot `i` of the scratch after the loop, for a plane index `i`. -/
theorem load_stored (f : Nat → Nat) (n : Nat) (p : Option (List Nat)) (h : n ≤ slots p)
    (i : Nat) (hi : i < n) :
    load (p.map (fun m => (List.range n).map f ++ m.drop n)) i = .ok (f i) := by
  cases p with
  | none => simp [slots] at h; omega
  | some m =>
    have hm : n ≤ m.length := h
    simp only [Option.map, load]
    have hl : i < ((List.range n).map f ++ m.drop n).length := by simp; omega
    rw [if_pos hl, List.getD_eq_getElem?_getD, List.getElem?_append_left (by simpa using hi)]
    simp [hi]

/-- A primitive with 32-bit results is not changed by the store into a
`uint32_t`. -/
theorem fold_u32 (u : Nat → List Nat → Nat) (hU : ∀ a d, u a d < 4294967296)
    (l : List (List Nat)) (c : Nat) :
    l.foldl (fun c d => to_u32 (u c d)) c = l.foldl u c := by
  induction l generalizing c with
  | nil => rfl
  | cons d t ih =>
    simp only [List.foldl_cons]
    rw [show to_u32 (u c d) = u c d from Nat.mod_eq_of_lt (hU c d)]
    exact ih (u c d)

/-- Chaining the primitive over a list of buffers is one pass over their
concatenation. -/
theorem fold_chain (u : Nat → List Nat → Nat)
    (hC : ∀ a x y, u (u a x) y = u a (x ++ y)) (l : List (List Nat)) (a : Nat) (x : List Nat) :
    l.foldl u (u a x) = u a (x ++ l.flatten) := by
  induction l generalizing x with
  | nil => simp
  | cons d t ih =>
    simp only [List.foldl_cons, List.flatten_cons]
    rw [hC, ih, List.append_assoc]

/-- A store keeps the number of slots. -/
theorem store_slots (p q : Option (List Nat)) (i v : Nat) (h : store p i v = .ok q) :
    slots q = slots p := by
  cases p with
  | none => simp [store] at h
  | some m =>
    simp only [store] at h
    split at h
    · cases h
      simp [slots]
    · cases h

/-- One iteration of the loop keeps the number of slots. -/
theorem plane_step_slots (ext : Externs) (buf : AVFrame) (ds : Int)
    (st st1 : Option (List Nat) × Nat) (i : Nat)
    (h : plane_step ext buf ds st i = .ok st1) : slots st1.1 = slots st.1 := by
  simp only [plane_step, bind, Except.bind] at h
  cases hr : read_plane buf i (to_uint ds) with
  | error e => rw [hr] at h; cases h
  | ok data =>
    rw [hr] at h
    simp only at h
    cases hst : store st.1 i (to_u32 (ext.av_adler32_update 0 data)) with
    | error e => rw [hst] at h; cases h
    | ok pc =>
      rw [hst] at h
      simp only at h
      have hp := store_slots _ _ _ _ hst
      by_cases h0 : i ≠ 0
      · rw [if_pos h0] at h
        simp only [pure, Except.pure] at h
        cases h
        exact hp
      · rw [if_neg h0] at h
        cases hld : load pc 0 with
        | error e => rw [hld] at h; cases h
        | ok c =>
          rw [hld] at h
          simp only [pure, Except.pure] at h
          cases h
          exact hp

/-- The loop keeps the number of slots. -/
theorem foldlM_slots (ext : Externs) (buf : AVFrame) (ds : Int) (is : List Nat) :
    ∀ st st1 : Option (List Nat) × Nat,
      is.foldlM (plane_step ext buf ds) st = .ok st1 → slots st1.1 = slots st.1 := by
  induction is with
  | nil =>
    intro st st1 h
    simp only [List.foldlM, pure, Except.pure] at h
    cases h
    rfl
  | cons i t ih =>
    intro st st1 h
    simp only [List.foldlM, bind, Except.bind] at h
    cases hs : plane_step ext buf ds st i with
    | error e => rw [hs] at h; cases h
    | ok st2 =>
      rw [hs] at h
      simp only at h
      rw [ih st2 st1 h, plane_step_slots ext buf ds st st2 i hs]

/-- What `filter_frame` fixes whenever it returns: the reported counter, the
counter left behind, the forwarded frame, the returned code and the number of
slots of the scratch. -/
theorem filter_frame_fields (ext : Externs) (inlink : AVFilterLink) (s : AShowInfoContext)
    (buf : AVFrame) (r : FilterResult) (h : filter_frame ext inlink s buf = .ok r) :
    r.n = s.frame ∧ r.ctx.frame = (s.frame + 1) % 18446744073709551616 ∧
    r.forwarded = [buf] ∧ r.ret = ext.ff_filter_frame buf ∧
    slots r.ctx.plane_checksums = slots s.plane_checksums := by
  simp only [filter_frame, bind, Except.bind] at h
  cases hl : plane_loop ext buf (frame_data_size ext buf) (frame_planes ext buf).toNat
      s.plane_checksums with
  | error e => rw [hl] at h; cases h
  | ok st =>
    rw [hl] at h
    simp only at h
    cases hm : (List.range (frame_planes ext buf).toNat).mapM (load st.1) with
    | error e => rw [hm] at h; cases h
    | ok printed =>
      rw [hm] at h
      simp only [pure, Except.pure] at h
      cases h
      exact ⟨rfl, rfl, rfl, rfl, foldlM_slots ext buf _ _ _ _ hl⟩

/-- Outcome of `config_input` when the allocator returns `NULL`. -/
theorem config_input_none (ext : Externs) (av_malloc : Nat → Option (Nat → Nat))
    (inlink : AVFilterLink) (s : AShowInfoContext)
    (h : av_malloc (alloc_size (ext.av_get_channel_layout_nb_channels inlink.channel_layout)) =
      none) :
    config_input ext av_malloc inlink s =
      (AVERROR ENOMEM, { plane_checksums := none, frame := s.frame }) := by
  simp [config_input, h]

/-- Outcome of `config_input` when the allocator returns a block. -/
theorem config_input_some (ext : Externs) (av_malloc : Nat → Option (Nat → Nat))
    (inlink : AVFilterLink) (s : AShowInfoContext) (junk : Nat → Nat)
    (h : av_malloc (alloc_size (ext.av_get_channel_layout_nb_channels inlink.channel_layout)) =
      some junk) :
    config_input ext av_malloc inlink s =
      (0, { plane_checksums := some ((List.range (slots_of_size (alloc_size
          (ext.av_get_channel_layout_nb_channels inlink.channel_layout)))).map junk),
            frame := s.frame }) := by
  simp [config_input, h]

/-- The counter is not touched by `config_input`. -/
theorem config_input_frame (ext : Externs) (av_malloc : Nat → Option (Nat → Nat))
    (inlink : AVFilterLink) (s : AShowInfoContext) :
    (config_input ext av_malloc inlink s).2.frame = s.frame := by
  cases h : av_malloc (alloc_size (ext.av_get_channel_layout_nb_channels inlink.channel_layout)) with
  | none => rw [config_input_none ext av_malloc inlink s h]
  | some junk => rw [config_input_some ext av_malloc inlink s junk h]

/-- Counter bookkeeping along a sequence of calls that starts with the counter
at `s.frame`. -/
theorem run_counter (ext : Externs) (calls : List Call) :
    ∀ (s s1 : AShowInfoContext) (rs : List FilterResult),
      s.frame < 18446744073709551616 → run ext s calls = .ok (s1, rs) →
      rs.length = frame_calls calls ∧
      s1.frame = (s.frame + rs.length) % 18446744073709551616 ∧
      ∀ k r, rs[k]? = some r →
        r.n = (s.frame + k) % 18446744073709551616 ∧
        r.ctx.frame = (s.frame + k + 1) % 18446744073709551616 := by
  induction calls with
  | nil =>
    intro s s1 rs hc h
    simp only [run] at h
    cases h
    refine ⟨rfl, ?_, ?_⟩
    · simp only [List.length_nil]; omega
    · intro k r hk; simp at hk
  | cons c cs ih =>
    intro s s1 rs hc h
    cases c with
    | config m l =>
      simp only [run] at h
      have := ih (config_input ext m l s).2 s1 rs
        (by rw [config_input_frame]; exact hc) h
      rw [config_input_frame] at this
      exact this
    | frame l b =>
      simp only [run] at h
      cases hf : filter_frame ext l s b with
      | error e => rw [hf] at h; cases h
      | ok r0 =>
        rw [hf] at h
        simp only at h
        obtain ⟨hn, hfr, -, -, -⟩ := filter_frame_fields ext l s b r0 hf
        cases hr : run ext r0.ctx cs with
        | error e => rw [hr] at h; cases h
        | ok rest =>
          rw [hr] at h
          simp only at h
          cases h
          obtain ⟨i1, i2, i3⟩ := ih r0.ctx rest.1 rest.2
            (by rw [hfr]; exact Nat.mod_lt _ (by decide)) hr
          refine ⟨?_, ?_, ?_⟩
          · simp only [List.length_cons, frame_calls, i1]
          · rw [i2, hfr]; simp only [List.length_cons]; omega
          · intro k r hk
            cases k with
            | zero =>
              simp only [List.getElem?_cons_zero, Option.some.injEq] at hk
              subst hk
              rw [hn, hfr]
              constructor <;> omega
            | succ k =>
              simp only [List.getElem?_cons_succ] at hk
              obtain ⟨j1, j2⟩ := i3 k r hk
              rw [j1, j2, hfr]
              constructor <;> omega

/-- Number of slots of a block allocated for a channel count in the range of a
non-negative `int`. -/
theorem slots_of_alloc (channels : Int) (h0 : 0 ≤ channels) (h1 : channels ≤ 2147483647) :
    slots_of_size (alloc_size channels) = channels.toNat := by
  unfold slots_of_size alloc_size
  omega

/-- After a successful `config_input` the scratch is a block with the slots of
the requested size. -/
theorem config_input_slots (ext : Externs) (av_malloc : Nat → Option (Nat → Nat))
    (inlink : AVFilterLink) (s : AShowInfoContext)
    (h : (config_input ext av_malloc inlink s).1 = 0) :
    slots (config_input ext av_malloc inlink s).2.plane_checksums =
      slots_of_size (alloc_size (ext.av_get_channel_layout_nb_channels inlink.channel_layout)) := by
  cases hm : av_malloc (alloc_size (ext.av_get_channel_layout_nb_channels inlink.channel_layout)) with
  | none =>
    rw [config_input_none ext av_malloc inlink s hm] at h
    simp [AVERROR, ENOMEM] at h
  | some junk =>
    rw [config_input_some ext av_malloc inlink s junk hm]
    simp [slots]

/-- A run of `filter_frame` calls keeps the number of slots. -/
theorem run_frames_slots (ext : Externs) (fs : List (AVFilterLink × AVFrame)) :
    ∀ (s s1 : AShowInfoContext) (rs : List FilterResult),
      run ext s (fs.map (fun f => Call.frame f.1 f.2)) = .ok (s1, rs) →
      slots s1.plane_checksums = slots s.plane_checksums := by
  induction fs with
  | nil =>
    intro s s1 rs h
    simp only [List.map_nil, run] at h
    cases h
    rfl
  | cons f t ih =>
    intro s s1 rs h
    simp only [List.map_cons, run] at h
    cases hf : filter_frame ext f.1 s f.2 with
    | error e => rw [hf] at h; cases h
    | ok r0 =>
      rw [hf] at h
      simp only at h
      cases hr : run ext r0.ctx (t.map (fun f => Call.frame f.1 f.2)) with
      | error e => rw [hr] at h; cases h
      | ok rest =>
        rw [hr] at h
        simp only at h
        cases h
        rw [ih r0.ctx rest.1 rest.2 hr]
        exact (filter_frame_fields ext f.1 s f.2 r0 hf).2.2.2.2

theorem hex_fixed_length (k v : Nat) : (hex_fixed k v).length = k := by
  induction k generalizing v with
  | zero => rfl
  | succ k ih => simp [hex_fixed, ih]

theorem hex_fixed_zero (k : Nat) : hex_fixed k 0 = List.replicate k '0' := by
  induction k with
  | zero => rfl
  | succ k ih =>
    simp only [hex_fixed, Nat.zero_div, Nat.zero_mod, ih]
    rw [List.replicate_succ']
    rfl

/-- Padding the digits of `%X` to `k + 1` characters gives the `k + 1` digit
expansion, for a value that has at most that many digits. -/
theorem hex_pad (k : Nat) : ∀ f v : Nat, k + 1 ≤ f → v < 16 ^ (k + 1) →
    List.replicate (k + 1 - (hex_digits f v).length) '0' ++ hex_digits f v =
      hex_fixed (k + 1) v := by
  induction k with
  | zero =>
    intro f v hf hv
    obtain ⟨f1, rfl⟩ : ∃ f1, f = f1 + 1 := ⟨f - 1, by omega⟩
    have hv16 : v < 16 := by simpa using hv
    simp [hex_digits, hex_fixed, hv16, Nat.mod_eq_of_lt hv16]
  | succ k ih =>
    intro f v hf hv
    obtain ⟨f1, rfl⟩ : ∃ f1, f = f1 + 1 := ⟨f - 1, by omega⟩
    by_cases hv16 : v < 16
    · have hd : v / 16 = 0 := Nat.div_eq_of_lt hv16
      simp only [hex_digits, if_pos hv16, List.length_singleton, hex_fixed, hd,
        Nat.zero_div, Nat.zero_mod]
      rw [show k + 1 + 1 - 1 = k + 1 from rfl, Nat.mod_eq_of_lt hv16]
      have hz := hex_fixed_zero (k + 1)
      simp only [hex_fixed, Nat.zero_div, Nat.zero_mod] at hz
      rw [hz]
    · have hq : v / 16 < 16 ^ (k + 1) := by
        apply Nat.div_lt_of_lt_mul
        rw [Nat.pow_succ] at hv
        omega
      have := ih f1 (v / 16) (by omega) hq
      simp only [hex_digits, if_neg hv16, List.length_append, List.length_singleton]
      rw [show k + 1 + 1 - ((hex_digits f1 (v / 16)).length + 1) =
        k + 1 - (hex_digits f1 (v / 16)).length by omega, ← List.append_assoc, this]
      rfl

/-- For a 32-bit value `%08X` writes the 8 digit expansion. -/
theorem fmt_08X_eq (v : Nat) (h : v < 4294967296) : fmt_08X v = String.mk (hex_fixed 8 v) := by
  unfold fmt_08X
  simp only
  rw [hex_pad 7 16 v (by decide) (by simpa using h)]

theorem hex_char_mem (d : Nat) (h : d < 16) : hex_char d ∈ "0123456789ABCDEF".data := by
  interval_cases d <;> decide

theorem hex_val_char (d : Nat) (h : d < 16) : hex_val (hex_char d) = d := by
  interval_cases d <;> decide

theorem hex_fixed_mem (k v : Nat) : ∀ c ∈ hex_fixed k v, c ∈ "0123456789ABCDEF".data := by
  induction k generalizing v with
  | zero => intro c hc; simp [hex_fixed] at hc
  | succ k ih =>
    intro c hc
    simp only [hex_fixed, List.mem_append, List.mem_singleton] at hc
    rcases hc with h1 | h2
    · exact ih (v / 16) c h1
    · rw [h2]; exact hex_char_mem _ (Nat.mod_lt _ (by decide))

theorem hex_fixed_value (k v : Nat) :
    (hex_fixed k v).foldl (fun acc c => 16 * acc + hex_val c) 0 = v % 16 ^ k := by
  induction k generalizing v with
  | zero => simp [hex_fixed, Nat.mod_one]
  | succ k ih =>
    simp only [hex_fixed, List.foldl_append, List.foldl_cons, List.foldl_nil, ih]
    rw [hex_val_char _ (Nat.mod_lt _ (by decide)), Nat.pow_succ', Nat.mod_mul]
    omega

/-- The text of `%08X` for a 32-bit value: 8 upper-case digits that denote it. -/
theorem is_hex8_fmt (v : Nat) (h : v < 4294967296) : is_hex8 (fmt_08X v) v := by
  rw [fmt_08X_eq v h]
  refine ⟨?_, ?_, ?_⟩
  · show (hex_fixed 8 v).length = 8
    exact hex_fixed_length 8 v
  · exact hex_fixed_mem 8 v
  · show (hex_fixed 8 v).foldl (fun acc c => 16 * acc + hex_val c) 0 = v
    rw [hex_fixed_value]
    exact Nat.mod_eq_of_lt (by simpa using h)

/-- The running checksum is a 32-bit value. -/
theorem fold_lt (u : Nat → List Nat → Nat) (l : List (List Nat)) (c : Nat)
    (hc : c < 4294967296) :
    l.foldl (fun c d => to_u32 (u c d)) c < 4294967296 := by
  induction l generalizing c with
  | nil => exact hc
  | cons d t ih =>
    simp only [List.foldl_cons]
    exact ih _ (Nat.mod_lt _ (by decide))

/-! ## Claims -/

/-- C2: when the primitive has 32-bit results and satisfies the chaining
contract, the aggregate checksum of a frame with at least one plane is the
checksum, from seed 0, of the planes concatenated in ascending order. -/
theorem C2_aggregate_is_checksum_of_concatenation (ext : Externs) (inlink : AVFilterLink)
    (s : AShowInfoContext) (buf : AVFrame)
    (hU : ∀ a d, ext.av_adler32_update a d < 4294967296)
    (hC : ∀ a x y, ext.av_adler32_update (ext.av_adler32_update a x) y =
      ext.av_adler32_update a (x ++ y))
    (hN : 1 ≤ plane_count ext buf)
    (hf : frame_ok ext buf) (hs : plane_count ext buf ≤ slots s.plane_checksums) :
    ∃ r, filter_frame ext inlink s buf = .ok r ∧
      r.checksum = ext.av_adler32_update 0 (plane_list ext buf).flatten := by
  refine ⟨_, filter_frame_eq ext inlink s buf hf hs, ?_⟩
  show (plane_list ext buf).foldl (fun c d => to_u32 (ext.av_adler32_update c d)) 0 = _
  rw [fold_u32 ext.av_adler32_update hU]
  cases hl : plane_list ext buf with
  | nil =>
    have : (plane_list ext buf).length = plane_count ext buf := by simp [plane_list]
    rw [hl] at this
    simp at this
    omega
  | cons d t =>
    simp only [List.foldl_cons, List.flatten_cons]
    exact fold_chain ext.av_adler32_update hC t 0 d

/-- C2 on a planar stereo frame, with the byte-sum primitive. -/
theorem C2_aggregate_is_checksum_of_concatenation_witness :
    (∀ a d, sample_ext.av_adler32_update a d < 4294967296) ∧
    (∀ a x y, sample_ext.av_adler32_update (sample_ext.av_adler32_update a x) y =
      sample_ext.av_adler32_update a (x ++ y)) ∧
    1 ≤ plane_count sample_ext planar_frame ∧
    frame_ok sample_ext planar_frame ∧
    plane_count sample_ext planar_frame ≤ slots used_ctx.plane_checksums ∧
    ∃ r, filter_frame sample_ext planar_link used_ctx planar_frame = .ok r ∧
      r.checksum = sample_ext.av_adler32_update 0 (plane_list sample_ext planar_frame).flatten :=
  have hC : ∀ a x y, sample_ext.av_adler32_update (sample_ext.av_adler32_update a x) y =
      sample_ext.av_adler32_update a (x ++ y) := by
    intro a x y
    show ((a + x.sum) % 4294967296 + y.sum) % 4294967296 = (a + (x ++ y).sum) % 4294967296
    rw [List.sum_append]
    omega
  ⟨fun _ _ => Nat.mod_lt _ (by decide), hC, by decide, by decide, by decide,
    C2_aggregate_is_checksum_of_concatenation sample_ext planar_link used_ctx planar_frame
      (fun _ _ => Nat.mod_lt _ (by decide)) hC (by decide) (by decide) (by decide)⟩

/-- C4: along any sequence of `config_input` and `filter_frame` calls that
starts on a fresh instance and runs without a memory fault, the `filter_frame`
call number `k + 1` reports `n = k` and leaves the counter at `k + 1` (modulo
`2^64`); the final counter is the number of `filter_frame` calls; and
`config_input`, successful or not, leaves the counter as it is. -/
theorem C4_frame_counter_counts_frames (ext : Externs) (calls : List Call)
    (s1 : AShowInfoContext) (rs : List FilterResult)
    (h : run ext fresh_ctx calls = .ok (s1, rs)) :
    rs.length = frame_calls calls ∧
    s1.frame = frame_calls calls % 18446744073709551616 ∧
    (∀ k r, rs[k]? = some r →
      r.n = k % 18446744073709551616 ∧ r.ctx.frame = (k + 1) % 18446744073709551616) ∧
    (∀ av_malloc inlink s, (config_input ext av_malloc inlink s).2.frame = s.frame) := by
  obtain ⟨h1, h2, h3⟩ := run_counter ext calls fresh_ctx s1 rs (by decide) h
  refine ⟨h1, ?_, ?_, config_input_frame ext⟩
  · rw [h2, h1]; simp [fresh_ctx]
  · intro k r hk
    have := h3 k r hk
    simpa [fresh_ctx] using this

/-- C4 on a sequence with three frames and a failed reconfiguration in between. -/
theorem C4_frame_counter_counts_frames_witness :
    ∃ s1 rs, run sample_ext fresh_ctx sample_calls = .ok (s1, rs) ∧
      rs.length = frame_calls sample_calls ∧
      s1.frame = frame_calls sample_calls % 18446744073709551616 ∧
      (∀ k r, rs[k]? = some r →
        r.n = k % 18446744073709551616 ∧ r.ctx.frame = (k + 1) % 18446744073709551616) ∧
      (∀ av_malloc inlink s,
        (config_input sample_ext av_malloc inlink s).2.frame = s.frame) := by
  have hb : (run sample_ext fresh_ctx sample_calls).toBool = true := by decide
  cases hr : run sample_ext fresh_ctx sample_calls with
  | error e => rw [hr] at hb; cases hb
  | ok p => exact ⟨p.1, p.2, rfl, C4_frame_counter_counts_frames sample_ext sample_calls p.1 p.2 hr⟩

/-- C5: for a readable frame and a scratch with a slot per plane, `filter_frame`
returns and hands exactly one frame to the downstream link, the input frame
itself: its sample data, timestamp, sample count, format, channel layout and
sample rate are those of the input. -/
theorem C5_input_frame_forwarded_unchanged (ext : Externs) (inlink : AVFilterLink)
    (s : AShowInfoContext) (buf : AVFrame)
    (hf : frame_ok ext buf) (hs : plane_count ext buf ≤ slots s.plane_checksums) :
    ∃ r, filter_frame ext inlink s buf = .ok r ∧ r.forwarded = [buf] ∧
      ∀ f ∈ r.forwarded, f.extended_data = buf.extended_data ∧ f.pts = buf.pts ∧
        f.nb_samples = buf.nb_samples ∧ f.format = buf.format ∧
        f.channel_layout = buf.channel_layout ∧ f.sample_rate = buf.sample_rate := by
  refine ⟨_, filter_frame_eq ext inlink s buf hf hs, rfl, ?_⟩
  intro f hfm
  have : f = buf := by simpa using hfm
  subst this
  exact ⟨rfl, rfl, rfl, rfl, rfl, rfl⟩

/-- C5 on a packed stereo frame. -/
theorem C5_input_frame_forwarded_unchanged_witness :
    frame_ok sample_ext packed_frame ∧
    plane_count sample_ext packed_frame ≤ slots used_ctx.plane_checksums ∧
    ∃ r, filter_frame sample_ext stereo_link used_ctx packed_frame = .ok r ∧
      r.forwarded = [packed_frame] ∧
      ∀ f ∈ r.forwarded, f.extended_data = packed_frame.extended_data ∧
        f.pts = packed_frame.pts ∧ f.nb_samples = packed_frame.nb_samples ∧
        f.format = packed_frame.format ∧ f.channel_layout = packed_frame.channel_layout ∧
        f.sample_rate = packed_frame.sample_rate :=
  ⟨by decide, by decide,
    C5_input_frame_forwarded_unchanged sample_ext stereo_link used_ctx packed_frame
      (by decide) (by decide)⟩

/-- C7, as stated, fails: for a packed stereo link a successful `config_input`
leaves two slots, not the single slot of the plane count. -/
theorem C7_slots_equal_plane_count_counterexample :
    ¬ (∀ (ext : Externs) (av_malloc : Nat → Option (Nat → Nat)) (inlink : AVFilterLink)
        (s : AShowInfoContext),
        (config_input ext av_malloc inlink s).1 = 0 →
        slots (config_input ext av_malloc inlink s).2.plane_checksums =
          (if ext.av_sample_fmt_is_planar inlink.format ≠ 0
            then ext.av_get_channel_layout_nb_channels inlink.channel_layout else 1).toNat) := by
  intro h
  have := h sample_ext malloc_ok stereo_link fresh_ctx (by decide)
  revert this
  decide

/-- C7, amended: after a successful `config_input` the scratch has as many slots
as the layout of the link has channels, whatever the sample format, and any run
of `filter_frame` calls that follows leaves that number of slots. -/
theorem C7_slots_equal_channel_count (ext : Externs)
    (av_malloc : Nat → Option (Nat → Nat)) (inlink : AVFilterLink) (s : AShowInfoContext)
    (hret : (config_input ext av_malloc inlink s).1 = 0)
    (h0 : 0 ≤ ext.av_get_channel_layout_nb_channels inlink.channel_layout)
    (h1 : ext.av_get_channel_layout_nb_channels inlink.channel_layout ≤ 2147483647) :
    slots (config_input ext av_malloc inlink s).2.plane_checksums =
      (ext.av_get_channel_layout_nb_channels inlink.channel_layout).toNat ∧
    ∀ (fs : List (AVFilterLink × AVFrame)) (s1 : AShowInfoContext) (rs : List FilterResult),
      run ext (config_input ext av_malloc inlink s).2 (fs.map (fun f => Call.frame f.1 f.2)) =
        .ok (s1, rs) →
      slots s1.plane_checksums =
        (ext.av_get_channel_layout_nb_channels inlink.channel_layout).toNat := by
  have hsl : slots (config_input ext av_malloc inlink s).2.plane_checksums =
      (ext.av_get_channel_layout_nb_channels inlink.channel_layout).toNat := by
    rw [config_input_slots ext av_malloc inlink s hret, slots_of_alloc _ h0 h1]
  refine ⟨hsl, ?_⟩
  intro fs s1 rs h
  rw [run_frames_slots ext fs _ s1 rs h, hsl]

/-- C7, amended, on a packed stereo link: two slots, kept by two frames. -/
theorem C7_slots_equal_channel_count_witness :
    (config_input sample_ext malloc_ok stereo_link fresh_ctx).1 = 0 ∧
    0 ≤ sample_ext.av_get_channel_layout_nb_channels stereo_link.channel_layout ∧
    sample_ext.av_get_channel_layout_nb_channels stereo_link.channel_layout ≤ 2147483647 ∧
    (sample_ext.av_get_channel_layout_nb_channels stereo_link.channel_layout).toNat = 2 ∧
    (run sample_ext (config_input sample_ext malloc_ok stereo_link fresh_ctx).2
      ([(stereo_link, packed_frame), (stereo_link, packed_frame)].map
        (fun f => Call.frame f.1 f.2))).toBool = true ∧
    slots (config_input sample_ext malloc_ok stereo_link fresh_ctx).2.plane_checksums =
      (sample_ext.av_get_channel_layout_nb_channels stereo_link.channel_layout).toNat ∧
    ∀ (fs : List (AVFilterLink × AVFrame)) (s1 : AShowInfoContext) (rs : List FilterResult),
      run sample_ext (config_input sample_ext malloc_ok stereo_link fresh_ctx).2
        (fs.map (fun f => Call.frame f.1 f.2)) = .ok (s1, rs) →
      slots s1.plane_checksums =
        (sample_ext.av_get_channel_layout_nb_channels stereo_link.channel_layout).toNat :=
  ⟨by decide, by decide, by decide, by decide, by decide,
    C7_slots_equal_channel_count sample_ext malloc_ok stereo_link fresh_ctx
      (by decide) (by decide) (by decide)⟩

/-- C9: `config_input` returns `AVERROR(ENOMEM)` exactly when the allocator
returns `NULL` and 0 otherwise; after a failure the scratch pointer is `NULL`,
whatever it was before; and the frame counter is unchanged in both cases. -/
theorem C9_config_input_allocation_failure (ext : Externs)
    (av_malloc : Nat → Option (Nat → Nat)) (inlink : AVFilterLink) (s : AShowInfoContext) :
    ((config_input ext av_malloc inlink s).1 = AVERROR ENOMEM ↔
      av_malloc (alloc_size (ext.av_get_channel_layout_nb_channels inlink.channel_layout)) =
        none) ∧
    ((config_input ext av_malloc inlink s).1 = 0 ↔
      av_malloc (alloc_size (ext.av_get_channel_layout_nb_channels inlink.channel_layout)) ≠
        none) ∧
    ((config_input ext av_malloc inlink s).1 ≠ 0 →
      (config_input ext av_malloc inlink s).2.plane_checksums = none ∧
      slots (config_input ext av_malloc inlink s).2.plane_checksums = 0) ∧
    (config_input ext av_malloc inlink s).2.frame = s.frame ∧
    AVERROR ENOMEM ≠ 0 := by
  cases hm : av_malloc (alloc_size (ext.av_get_channel_layout_nb_channels inlink.channel_layout)) with
  | none =>
    rw [config_input_none ext av_malloc inlink s hm]
    simp [AVERROR, ENOMEM, slots]
  | some junk =>
    rw [config_input_some ext av_malloc inlink s junk hm]
    simp [AVERROR, ENOMEM]

/-- C10: for a readable frame and a scratch with a slot per plane, the text
written by `filter_frame` is the head of the report, then `checksum:` with the
aggregate as `%08X` and a space, then `plane_checksums: [ `, then one `%08X`
and a space per plane in ascending order, then `]` and a newline. The aggregate
and every per-plane value are 32-bit values, each written as exactly 8
upper-case hexadecimal digits that denote it, so zero padded and with nothing
in front; there is one entry per plane, and entry `i` is slot `i` of the scratch. -/
theorem C10_report_hex_fields (ext : Externs) (inlink : AVFilterLink)
    (s : AShowInfoContext) (buf : AVFrame)
    (hf : frame_ok ext buf) (hs : plane_count ext buf ≤ slots s.plane_checksums) :
    ∃ r, filter_frame ext inlink s buf = .ok r ∧
      r.log = [report_head ext inlink s buf ++ "checksum:" ++ fmt_08X r.checksum ++ " ",
          "plane_checksums: [ "] ++ r.printed.map (fun v => fmt_08X v ++ " ") ++ ["]\n"] ∧
      r.checksum < 4294967296 ∧ is_hex8 (fmt_08X r.checksum) r.checksum ∧
      r.printed.length = plane_count ext buf ∧
      ∀ i, i < plane_count ext buf →
        ∃ v, r.printed[i]? = some v ∧ load r.ctx.plane_checksums i = .ok v ∧
          v < 4294967296 ∧ is_hex8 (fmt_08X v) v := by
  have hlt := fold_lt ext.av_adler32_update (plane_list ext buf) 0 (by decide)
  refine ⟨_, filter_frame_eq ext inlink s buf hf hs, rfl, hlt, is_hex8_fmt _ hlt, ?_, ?_⟩
  · simp
  · intro i hi
    have hv : to_u32 (ext.av_adler32_update 0 (plane_data ext buf i)) < 4294967296 :=
      Nat.mod_lt _ (by decide)
    refine ⟨to_u32 (ext.av_adler32_update 0 (plane_data ext buf i)), ?_, ?_, hv,
      is_hex8_fmt _ hv⟩
    · simp [hi]
    · show load (s.plane_checksums.map _) i = _
      rw [load_stored _ _ _ hs i hi]

/-- C10 on a planar stereo frame. -/
theorem C10_report_hex_fields_witness :
    frame_ok sample_ext planar_frame ∧
    plane_count sample_ext planar_frame ≤ slots used_ctx.plane_checksums ∧
    fmt_08X 36 = "00000024" ∧
    ∃ r, filter_frame sample_ext planar_link used_ctx planar_frame = .ok r ∧
      r.log = [report_head sample_ext planar_link used_ctx planar_frame ++ "checksum:" ++
          fmt_08X r.checksum ++ " ", "plane_checksums: [ "] ++
          r.printed.map (fun v => fmt_08X v ++ " ") ++ ["]\n"] ∧
      r.checksum < 4294967296 ∧ is_hex8 (fmt_08X r.checksum) r.checksum ∧
      r.printed.length = plane_count sample_ext planar_frame ∧
      ∀ i, i < plane_count sample_ext planar_frame →
        ∃ v, r.printed[i]? = some v ∧ load r.ctx.plane_checksums i = .ok v ∧
          v < 4294967296 ∧ is_hex8 (fmt_08X v) v :=
  ⟨by decide, by decide, by decide,
    C10_report_hex_fields sample_ext planar_link used_ctx planar_frame (by decide) (by decide)⟩

/-! ## Lines of the report -/

/-- A text without newline, followed by one newline, is one line. -/
theorem text_lines_one_line (a : List Char) (h : '\n' ∉ a) :
    text_lines (a ++ ['\n']) = [a] := by
  induction a with
  | nil => rfl
  | cons c t ih =>
    have hc : c ≠ '\n' := fun e => h (by rw [e]; exact List.mem_cons_self _ _)
    have ht : '\n' ∉ t := fun e => h (List.mem_cons_of_mem _ e)
    have iht := ih ht
    simp only [List.cons_append, text_lines, if_neg hc]
    change (match text_lines (t ++ ['\n']) with
      | [] => [[c]]
      | l :: ls => (c :: l) :: ls) = _
    rw [iht]

/-- The digits of `%08X` hold no newline. -/
theorem is_hex8_no_newline (t : String) (v : Nat) (h : is_hex8 t v) : '\n' ∉ t.data := by
  intro hm
  have := h.2.1 _ hm
  revert this
  decide

/-- From `checksum:` on, the report of a single-plane frame is one line, also
after any text that holds no newline. -/
theorem single_plane_tail_lines (x : String) (hx : '\n' ∉ x.data) (pre : List Char)
    (hpre : '\n' ∉ pre) :
    text_lines (pre ++ ("checksum:" ++ x ++ " plane_checksums: [ " ++ x ++ " ]\n").data) =
      [pre ++ ("checksum:" ++ x ++ " plane_checksums: [ " ++ x ++ " ]").data] := by
  have e1 : (" ]\n" : String).data = (" ]" : String).data ++ ['\n'] := rfl
  have n1 : '\n' ∉ ("checksum:" : String).data := by decide
  have n2 : '\n' ∉ (" plane_checksums: [ " : String).data := by decide
  have n3 : '\n' ∉ (" ]" : String).data := by decide
  have hmem : '\n' ∉ pre ++ ("checksum:" : String).data ++ x.data ++
      (" plane_checksums: [ " : String).data ++ x.data ++ (" ]" : String).data := by
    simp only [List.mem_append, not_or]
    exact ⟨⟨⟨⟨⟨hpre, n1⟩, hx⟩, n2⟩, hx⟩, n3⟩
  have key := text_lines_one_line _ hmem
  have e2 : pre ++ ("checksum:" ++ x ++ " plane_checksums: [ " ++ x ++ " ]\n").data =
      pre ++ ("checksum:" : String).data ++ x.data ++ (" plane_checksums: [ " : String).data ++
        x.data ++ (" ]" : String).data ++ ['\n'] := by
    rw [String.data_append, String.data_append, String.data_append, String.data_append, e1]
    simp only [List.append_assoc]
  have e3 : pre ++ ("checksum:" ++ x ++ " plane_checksums: [ " ++ x ++ " ]").data =
      pre ++ ("checksum:" : String).data ++ x.data ++ (" plane_checksums: [ " : String).data ++
        x.data ++ (" ]" : String).data := by
    rw [String.data_append, String.data_append, String.data_append, String.data_append]
    simp only [List.append_assoc]
  rw [e2, e3, key]

/-- The pieces written by the four `av_log` calls for one plane, joined. -/
theorem join_single_plane (h x : String) :
    String.join ([h ++ "checksum:" ++ x ++ " ", "plane_checksums: [ "] ++
      [x].map (fun v => v ++ " ") ++ ["]\n"]) =
      h ++ ("checksum:" ++ x ++ " plane_checksums: [ " ++ x ++ " ]\n") := by
  have e1 : (" plane_checksums: [ " : String).data =
      (" " : String).data ++ ("plane_checksums: [ " : String).data := rfl
  have e2 : (" ]\n" : String).data = (" " : String).data ++ ("]\n" : String).data := rfl
  apply String.ext
  simp only [String.data_join, String.data_append, List.map_cons, List.map_nil,
    List.cons_append, List.nil_append, List.flatten_cons, List.flatten_nil, List.append_nil,
    e1, e2, List.append_assoc]

set_option maxRecDepth 100000 in
/-- C11, as stated, fails: the report of a packed stereo frame holds a single
newline, at its very end, so it is one line and has no second line. -/
theorem C11_single_plane_report_counterexample :
    ¬ (∀ (ext : Externs) (inlink : AVFilterLink) (s : AShowInfoContext) (buf : AVFrame),
        frame_ok ext buf → plane_count ext buf ≤ slots s.plane_checksums →
        plane_count ext buf = 1 →
        ∃ r, filter_frame ext inlink s buf = .ok r ∧
          ∃ l1 : List Char, text_lines (report_text r).data =
            [l1 ++ ("checksum:" ++ fmt_08X r.checksum).data,
             ("plane_checksums: [ " ++ fmt_08X r.checksum ++ " ]").data]) := by
  intro h
  obtain ⟨r, hr, l1, hl⟩ := h plain_ext stereo_link used_ctx packed_frame
    (by decide) (by decide) (by decide)
  have hone : (filter_frame plain_ext stereo_link used_ctx packed_frame).toOption.map
      (fun r => (text_lines (report_text r).data).length) = some 1 := by decide
  rw [hr] at hone
  simp only [Except.toOption, Option.map_some', Option.some.injEq] at hone
  rw [hl] at hone
  simp at hone

/-- C11, amended: for a single-plane frame the text written by `filter_frame` is
the head of the report followed by `checksum:XXXXXXXX plane_checksums: [ XXXXXXXX ]`
and one newline, both values being the same 8 hexadecimal digits of the
aggregate; from `checksum:` on it is a single line, and the whole report is a
single line when the head holds no newline. -/
theorem C11_single_plane_report_one_line (ext : Externs) (inlink : AVFilterLink)
    (s : AShowInfoContext) (buf : AVFrame)
    (hf : frame_ok ext buf) (hs : plane_count ext buf ≤ slots s.plane_checksums)
    (h1 : plane_count ext buf = 1) :
    ∃ r, filter_frame ext inlink s buf = .ok r ∧
      report_text r = report_head ext inlink s buf ++
        ("checksum:" ++ fmt_08X r.checksum ++ " plane_checksums: [ " ++
          fmt_08X r.checksum ++ " ]\n") ∧
      is_hex8 (fmt_08X r.checksum) r.checksum ∧
      load r.ctx.plane_checksums 0 = .ok r.checksum ∧
      text_lines ("checksum:" ++ fmt_08X r.checksum ++ " plane_checksums: [ " ++
          fmt_08X r.checksum ++ " ]\n").data =
        [("checksum:" ++ fmt_08X r.checksum ++ " plane_checksums: [ " ++
          fmt_08X r.checksum ++ " ]").data] ∧
      ('\n' ∉ (report_head ext inlink s buf).data →
        text_lines (report_text r).data =
          [(report_head ext inlink s buf ++ ("checksum:" ++ fmt_08X r.checksum ++
            " plane_checksums: [ " ++ fmt_08X r.checksum ++ " ]")).data]) := by
  have hlt := fold_lt ext.av_adler32_update (plane_list ext buf) 0 (by decide)
  have hx := is_hex8_fmt _ hlt
  have hnl := is_hex8_no_newline _ _ hx
  have hsum : (plane_list ext buf).foldl (fun c d => to_u32 (ext.av_adler32_update c d)) 0 =
      to_u32 (ext.av_adler32_update 0 (plane_data ext buf 0)) := by
    simp [plane_list, h1, List.range_succ]
  have htext : String.join ([report_head ext inlink s buf ++ "checksum:" ++
        fmt_08X ((plane_list ext buf).foldl
          (fun c d => to_u32 (ext.av_adler32_update c d)) 0) ++ " ",
        "plane_checksums: [ "] ++
      ((List.range (plane_count ext buf)).map
        (fun i => to_u32 (ext.av_adler32_update 0 (plane_data ext buf i)))).map
          (fun v => fmt_08X v ++ " ") ++ ["]\n"]) =
      report_head ext inlink s buf ++
        ("checksum:" ++ fmt_08X ((plane_list ext buf).foldl
            (fun c d => to_u32 (ext.av_adler32_update c d)) 0) ++ " plane_checksums: [ " ++
          fmt_08X ((plane_list ext buf).foldl
            (fun c d => to_u32 (ext.av_adler32_update c d)) 0) ++ " ]\n") := by
    rw [← join_single_plane, h1, hsum]
    rfl
  refine ⟨_, filter_frame_eq ext inlink s buf hf hs, htext, hx, ?_, ?_, ?_⟩
  · show load (s.plane_checksums.map _) 0 = _
    rw [load_stored _ _ _ hs 0 (by omega)]
    exact congrArg Except.ok hsum.symm
  · exact single_plane_tail_lines _ hnl [] (by simp)
  · intro hhead
    show text_lines (String.join _).data = _
    rw [htext, String.data_append, String.data_append]
    exact single_plane_tail_lines _ hnl _ hhead

set_option maxRecDepth 100000 in
/-- C11, amended, on a packed stereo frame, with the text it writes. -/
theorem C11_single_plane_report_one_line_witness :
    frame_ok plain_ext packed_frame ∧
    plane_count plain_ext packed_frame ≤ slots used_ctx.plane_checksums ∧
    plane_count plain_ext packed_frame = 1 ∧
    (filter_frame plain_ext stereo_link used_ctx packed_frame).toOption.map report_text =
      some ("n:7 pts:0 pts_time:0.000000 fmt:s16 chlayout:stereo rate:44100 nb_samples:2 " ++
        "checksum:00000024 plane_checksums: [ 00000024 ]\n") ∧
    ∃ r, filter_frame plain_ext stereo_link used_ctx packed_frame = .ok r ∧
      report_text r = report_head plain_ext stereo_link used_ctx packed_frame ++
        ("checksum:" ++ fmt_08X r.checksum ++ " plane_checksums: [ " ++
          fmt_08X r.checksum ++ " ]\n") ∧
      is_hex8 (fmt_08X r.checksum) r.checksum ∧
      load r.ctx.plane_checksums 0 = .ok r.checksum ∧
      text_lines ("checksum:" ++ fmt_08X r.checksum ++ " plane_checksums: [ " ++
          fmt_08X r.checksum ++ " ]\n").data =
        [("checksum:" ++ fmt_08X r.checksum ++ " plane_checksums: [ " ++
          fmt_08X r.checksum ++ " ]").data] ∧
      ('\n' ∉ (report_head plain_ext stereo_link used_ctx packed_frame).data →
        text_lines (report_text r).data =
          [(report_head plain_ext stereo_link used_ctx packed_frame ++
            ("checksum:" ++ fmt_08X r.checksum ++
            " plane_checksums: [ " ++ fmt_08X r.checksum ++ " ]")).data]) :=
  ⟨by decide, by decide, by decide, by decide,
    C11_single_plane_report_one_line plain_ext stereo_link used_ctx packed_frame
      (by decide) (by decide) (by decide)⟩

/-- C12, as stated, fails: a planar stereo frame whose two planes hold the same
bytes gets the same checksum in both slots, whatever the primitive is. -/
theorem C12_planar_stereo_distinct_counterexample :
    ¬ (∀ (ext : Externs) (inlink : AVFilterLink) (s : AShowInfoContext) (buf : AVFrame),
        (∀ a d, ext.av_adler32_update a d < 4294967296) →
        frame_planar ext buf ≠ 0 → frame_channels ext buf = 2 →
        frame_ok ext buf → plane_count ext buf ≤ slots s.plane_checksums →
        ∃ r, filter_frame ext inlink s buf = .ok r ∧ r.printed.length = 2 ∧
          r.printed[0]? ≠ r.printed[1]? ∧
          some r.checksum ≠ r.printed[0]? ∧ some r.checksum ≠ r.printed[1]?) := by
  intro h
  obtain ⟨r, hr, -, hne, -, -⟩ := h sample_ext planar_link used_ctx twin_frame
    (fun _ _ => Nat.mod_lt _ (by decide)) (by decide) (by decide) (by decide) (by decide)
  have hev : (filter_frame sample_ext planar_link used_ctx twin_frame).toOption.map
      (fun r => r.printed) = some [10, 10] := by decide
  rw [hr] at hev
  simp only [Except.toOption, Option.map_some', Option.some.injEq] at hev
  rw [hev] at hne
  exact hne rfl

/-- C12, amended: for a planar stereo frame `filter_frame` works on 2 planes, the
two entries are the checksums from seed 0 of plane 0 and of plane 1 (equal when
the planes hold the same bytes), the aggregate is the primitive chained over
plane 0 then plane 1, and any other call on the same frame, from any context
and link, reports the same aggregate and entries. -/
theorem C12_planar_stereo_checksums (ext : Externs) (inlink : AVFilterLink)
    (s : AShowInfoContext) (buf : AVFrame)
    (hU : ∀ a d, ext.av_adler32_update a d < 4294967296)
    (hpl : frame_planar ext buf ≠ 0) (hch : frame_channels ext buf = 2)
    (hf : frame_ok ext buf) (hs : plane_count ext buf ≤ slots s.plane_checksums) :
    plane_count ext buf = 2 ∧
    ∃ r, filter_frame ext inlink s buf = .ok r ∧
      r.printed = [ext.av_adler32_update 0 (plane_data ext buf 0),
        ext.av_adler32_update 0 (plane_data ext buf 1)] ∧
      r.checksum = ext.av_adler32_update
        (ext.av_adler32_update 0 (plane_data ext buf 0)) (plane_data ext buf 1) ∧
      (plane_data ext buf 0 = plane_data ext buf 1 → r.printed[0]? = r.printed[1]?) ∧
      ∀ (l2 : AVFilterLink) (s2 : AShowInfoContext),
        plane_count ext buf ≤ slots s2.plane_checksums →
        ∃ r2, filter_frame ext l2 s2 buf = .ok r2 ∧
          r2.checksum = r.checksum ∧ r2.printed = r.printed := by
  have h2 : plane_count ext buf = 2 := by
    unfold plane_count frame_planes
    rw [if_pos hpl, hch]
    rfl
  have hu : ∀ a d, to_u32 (ext.av_adler32_update a d) = ext.av_adler32_update a d :=
    fun a d => Nat.mod_eq_of_lt (hU a d)
  have hpr : (List.range (plane_count ext buf)).map
      (fun i => to_u32 (ext.av_adler32_update 0 (plane_data ext buf i))) =
      [ext.av_adler32_update 0 (plane_data ext buf 0),
        ext.av_adler32_update 0 (plane_data ext buf 1)] := by
    rw [h2]
    simp [List.range_succ, hu]
  refine ⟨h2, _, filter_frame_eq ext inlink s buf hf hs, hpr, ?_, ?_, ?_⟩
  · show (plane_list ext buf).foldl (fun c d => to_u32 (ext.av_adler32_update c d)) 0 = _
    simp [plane_list, h2, List.range_succ, hu]
  · intro he
    show ((List.range (plane_count ext buf)).map
      (fun i => to_u32 (ext.av_adler32_update 0 (plane_data ext buf i))))[0]? = _
    rw [hpr, he]
    rfl
  · intro l2 s2 hs2
    exact ⟨_, filter_frame_eq ext l2 s2 buf hf hs2, rfl, rfl⟩

/-- C12, amended, on a planar stereo frame with two different planes. -/
theorem C12_planar_stereo_checksums_witness :
    (∀ a d, sample_ext.av_adler32_update a d < 4294967296) ∧
    frame_planar sample_ext planar_frame ≠ 0 ∧ frame_channels sample_ext planar_frame = 2 ∧
    frame_ok sample_ext planar_frame ∧
    plane_count sample_ext planar_frame ≤ slots used_ctx.plane_checksums ∧
    plane_count sample_ext planar_frame = 2 ∧
    ∃ r, filter_frame sample_ext planar_link used_ctx planar_frame = .ok r ∧
      r.printed = [sample_ext.av_adler32_update 0 (plane_data sample_ext planar_frame 0),
        sample_ext.av_adler32_update 0 (plane_data sample_ext planar_frame 1)] ∧
      r.checksum = sample_ext.av_adler32_update
        (sample_ext.av_adler32_update 0 (plane_data sample_ext planar_frame 0))
        (plane_data sample_ext planar_frame 1) ∧
      (plane_data sample_ext planar_frame 0 = plane_data sample_ext planar_frame 1 →
        r.printed[0]? = r.printed[1]?) ∧
      ∀ (l2 : AVFilterLink) (s2 : AShowInfoContext),
        plane_count sample_ext planar_frame ≤ slots s2.plane_checksums →
        ∃ r2, filter_frame sample_ext l2 s2 planar_frame = .ok r2 ∧
          r2.checksum = r.checksum ∧ r2.printed = r.printed :=
  ⟨fun _ _ => Nat.mod_lt _ (by decide), by decide, by decide, by decide, by decide,
    C12_planar_stereo_checksums sample_ext planar_link used_ctx planar_frame
      (fun _ _ => Nat.mod_lt _ (by decide)) (by decide) (by decide) (by decide) (by decide)⟩

/-- The value passed for `pts_time` whenever `filter_frame` returns. -/
theorem filter_frame_pts_time (ext : Externs) (inlink : AVFilterLink) (s : AShowInfoContext)
    (buf : AVFrame) (r : FilterResult) (h : filter_frame ext inlink s buf = .ok r) :
    r.pts_time = (buf.pts : Rat) * av_q2d inlink.time_base := by
  simp only [filter_frame, bind, Except.bind] at h
  cases hl : plane_loop ext buf (frame_data_size ext buf) (frame_planes ext buf).toNat
      s.plane_checksums with
  | error e => rw [hl] at h; cases h
  | ok st =>
    rw [hl] at h
    simp only at h
    cases hm : (List.range (frame_planes ext buf).toNat).mapM (load st.1) with
    | error e => rw [hm] at h; cases h
    | ok printed =>
      rw [hm] at h
      simp only [pure, Except.pure] at h
      cases h
      rfl

/-- C14: `uninit` leaves the context without scratch; applied twice it gives the
state it gives when applied once; on a context without scratch it changes
nothing; and it never changes the frame counter. -/
theorem C14_uninit_idempotent (s : AShowInfoContext) :
    (uninit s).plane_checksums = none ∧ slots (uninit s).plane_checksums = 0 ∧
    uninit (uninit s) = uninit s ∧
    (s.plane_checksums = none → uninit s = s) ∧
    (uninit s).frame = s.frame := by
  obtain ⟨p, f⟩ := s
  cases p with
  | none => simp [uninit, av_freep, slots]
  | some m => simp [uninit, av_freep, slots]

/-- C16: for a readable frame and a scratch with a slot per plane, `filter_frame`
returns the very code `ff_filter_frame` gives for the forwarded input frame,
whatever that code is, and the frame counter has advanced by one (modulo
`2^64`) in every case. -/
theorem C16_returns_downstream_code (ext : Externs) (inlink : AVFilterLink)
    (s : AShowInfoContext) (buf : AVFrame)
    (hf : frame_ok ext buf) (hs : plane_count ext buf ≤ slots s.plane_checksums) :
    ∃ r, filter_frame ext inlink s buf = .ok r ∧
      r.forwarded = [buf] ∧ r.ret = ext.ff_filter_frame buf ∧
      r.ctx.frame = (s.frame + 1) % 18446744073709551616 ∧
      (s.frame + 1 < 18446744073709551616 → r.ctx.frame = s.frame + 1) := by
  refine ⟨_, filter_frame_eq ext inlink s buf hf hs, rfl, rfl, rfl, ?_⟩
  intro hlt
  exact Nat.mod_eq_of_lt hlt

/-- C16 with a downstream link that refuses the frame with `AVERROR(ENOMEM)`:
the code is returned and the counter goes from 7 to 8. -/
theorem C16_returns_downstream_code_witness :
    frame_ok plain_ext packed_frame ∧
    plane_count plain_ext packed_frame ≤ slots used_ctx.plane_checksums ∧
    plain_ext.ff_filter_frame packed_frame = -12 ∧ used_ctx.frame = 7 ∧
    ∃ r, filter_frame plain_ext stereo_link used_ctx packed_frame = .ok r ∧
      r.forwarded = [packed_frame] ∧ r.ret = plain_ext.ff_filter_frame packed_frame ∧
      r.ctx.frame = (used_ctx.frame + 1) % 18446744073709551616 ∧
      (used_ctx.frame + 1 < 18446744073709551616 → r.ctx.frame = used_ctx.frame + 1) :=
  ⟨by decide, by decide, by decide, rfl,
    C16_returns_downstream_code plain_ext stereo_link used_ctx packed_frame
      (by decide) (by decide)⟩

end AShowInfo
